import Mathlib

/-!
Verification of the gainlineup RF cascade engine against its
natural-language specification.

The engine (src/block.rs, src/input.rs, src/node.rs, src/amplifier_model.rs)
is embedded shallowly: Rust `f64` values are modelled as exact rationals `ℚ`,
so every dB-domain addition, subtraction, comparison and clamp of the source
is mirrored exactly.  The transcendental conversion helpers live in the
external `rfconversions` crate (and `f64::log10`), whose source is not part
of this repository; they are modelled as an abstract bundle `Rfconv` of
functions `ℚ → ℚ`, and every theorem below is proved for an arbitrary
bundle, so the results depend only on the structure of the embedded code,
never on a particular choice of conversion functions.
-/

namespace Gainlineup

/-- Modelled from the spec: the external `rfconversions` crate ("Conversion
helpers (external): dB↔linear, dBm↔Watts, noise-figure↔factor↔temperature
conversions — pure functions the engine depends on") together with the
standard-library `f64::log10`.  Their sources are not in this repository, so
they are kept abstract: a bundle of pure functions on `ℚ`.  Per the spec,
`db_to_linear x = 10^(x/10)`, `noise_factor_from_noise_figure nf = 10^(nf/10)`,
`noise_figure_from_noise_factor F = 10·log10 F`,
`noise_temperature_from_noise_factor F = 290·(F−1)`. -/
structure Rfconv where
  db_to_linear : ℚ → ℚ
  dbm_to_watts : ℚ → ℚ
  watts_to_dbm : ℚ → ℚ
  noise_factor_from_noise_figure : ℚ → ℚ
  noise_figure_from_noise_factor : ℚ → ℚ
  noise_temperature_from_noise_figure : ℚ → ℚ
  noise_temperature_from_noise_factor : ℚ → ℚ
  log10 : ℚ → ℚ

/-- `src/constants.rs`: the Boltzmann constant `1.380649e-23` J/K. -/
def BOLTZMANN : ℚ := 1380649 / 10 ^ 29

/-- `src/block.rs`: a single stage of the cascade.  `name` is a label;
`gain_db` is the small-signal gain (negative for loss); `output_p1db_dbm`
and `output_ip3_dbm` are the optional compression and intercept points. -/
structure Block where
  name : String
  gain_db : ℚ
  noise_figure_db : ℚ
  output_p1db_dbm : Option ℚ
  output_ip3_dbm : Option ℚ
  deriving DecidableEq

/-- `Block::noise_temperature`. -/
def Block.noise_temperature (b : Block) (c : Rfconv) : ℚ :=
  c.noise_temperature_from_noise_figure b.noise_figure_db

/-- `Block::noise_factor`. -/
def Block.noise_factor (b : Block) (c : Rfconv) : ℚ :=
  c.noise_factor_from_noise_figure b.noise_figure_db

/-- `Block::input_noise_power`: `(F-1) × k × T × B` converted to dBm. -/
def Block.input_noise_power (b : Block) (c : Rfconv) (bandwidth : ℚ) : ℚ :=
  let noise_factor := b.noise_factor c
  let noise_temperature := b.noise_temperature c
  let f_minus_1 := noise_factor - 1
  let ktb := BOLTZMANN * noise_temperature * bandwidth
  c.watts_to_dbm (f_minus_1 * ktb)

/-- `Block::output_noise_power`: input noise power plus gain, clamped to
`output_p1db_dbm + 1` when that optional field is set. -/
def Block.output_noise_power (b : Block) (c : Rfconv) (bandwidth : ℚ) : ℚ :=
  let input_noise_power := b.input_noise_power c bandwidth
  let output_noise_power_without_compression := input_noise_power + b.gain_db
  match b.output_p1db_dbm with
  | some output_p1db_dbm =>
      if output_noise_power_without_compression > output_p1db_dbm + 1 then
        output_p1db_dbm + 1
      else
        output_noise_power_without_compression
  | none => output_noise_power_without_compression

/-- `Block::output_power`: `pin + gain_db`, clamped to `output_p1db_dbm + 1`
when that optional field is set and the linear output would exceed it. -/
def Block.output_power (b : Block) (input_power : ℚ) : ℚ :=
  let output_power_without_compression := input_power + b.gain_db
  match b.output_p1db_dbm with
  | some op1db =>
      if output_power_without_compression > op1db + 1 then op1db + 1
      else output_power_without_compression
  | none => output_power_without_compression

/-- `Block::power_gain`: actual (possibly compressed) gain at `input_power`. -/
def Block.power_gain (b : Block) (input_power : ℚ) : ℚ :=
  b.output_power input_power - input_power

/-- `Block::imd3_output_power_dbm`: `3·Pout − 2·OIP3`, `none` without OIP3. -/
def Block.imd3_output_power_dbm (b : Block) (input_power_per_tone_dbm : ℚ) : Option ℚ :=
  match b.output_ip3_dbm with
  | none => none
  | some oip3 => some (3 * b.output_power input_power_per_tone_dbm - 2 * oip3)

/-- The `output_p1db_dbm` hard clamp shared by the signal and noise paths:
the identity when no P1dB is set, otherwise a cap at `p + 1`. -/
def clampP1 : Option ℚ → ℚ → ℚ
  | none, x => x
  | some p, x => if x > p + 1 then p + 1 else x

/-- The sweep loop of `sweep_range` (src/block.rs) and
`AmplifierModel::am_am_am_pm_sweep` (src/amplifier_model.rs):
`while pin <= stop + step * 0.01 { push f(pin); pin += step }`, here with an
explicit fuel bound; `none` means the loop did not finish within `fuel`
iterations. -/
def sweepLoop {α : Type} (f : ℚ → α) : ℕ → ℚ → ℚ → ℚ → Option (List α)
  | 0, _, _, _ => none
  | fuel + 1, pin, stop_dbm, step_db =>
      if pin ≤ stop_dbm + step_db * (1 / 100) then
        (sweepLoop f fuel (pin + step_db) stop_dbm step_db).map (fun rest => f pin :: rest)
      else some []

/-- `sweep_range` (src/block.rs): evenly spaced power sweep values. -/
def sweep_range (fuel : ℕ) (start_dbm stop_dbm step_db : ℚ) : Option (List ℚ) :=
  sweepLoop id fuel start_dbm stop_dbm step_db

/-- The loop of `sweep_range start stop step` exits after finitely many
iterations (for some fuel the fueled model returns a result). -/
def sweep_range_terminates (start_dbm stop_dbm step_db : ℚ) : Prop :=
  ∃ fuel l, sweep_range fuel start_dbm stop_dbm step_db = some l

/-- `Block::am_am_curve`. -/
def Block.am_am_curve (b : Block) (input_powers_dbm : List ℚ) : List (ℚ × ℚ) :=
  input_powers_dbm.map (fun pin => (pin, b.output_power pin))

/-- `Block::am_am_sweep`. -/
def Block.am_am_sweep (b : Block) (fuel : ℕ) (start_dbm stop_dbm step_db : ℚ) :
    Option (List (ℚ × ℚ)) :=
  (sweep_range fuel start_dbm stop_dbm step_db).map b.am_am_curve

/-- `Block::gain_compression_curve`. -/
def Block.gain_compression_curve (b : Block) (input_powers_dbm : List ℚ) : List (ℚ × ℚ) :=
  input_powers_dbm.map (fun pin => (pin, b.power_gain pin))

/-- `Block::gain_compression_sweep`. -/
def Block.gain_compression_sweep (b : Block) (fuel : ℕ) (start_dbm stop_dbm step_db : ℚ) :
    Option (List (ℚ × ℚ)) :=
  (sweep_range fuel start_dbm stop_dbm step_db).map b.gain_compression_curve

/-- `Imd3Point` (src/block.rs). -/
structure Imd3Point where
  input_per_tone_dbm : ℚ
  output_per_tone_dbm : ℚ
  im3_output_dbm : ℚ
  rejection_db : ℚ
  deriving DecidableEq

/-- `Block::imd3_sweep`: immediately empty without OIP3, otherwise one
`Imd3Point` per swept power. -/
def Block.imd3_sweep (b : Block) (fuel : ℕ) (start_dbm stop_dbm step_db : ℚ) :
    Option (List Imd3Point) :=
  match b.output_ip3_dbm with
  | none => some []
  | some oip3 =>
      (sweep_range fuel start_dbm stop_dbm step_db).map fun powers =>
        powers.map fun pin =>
          let pout := b.output_power pin
          let im3 := 3 * pout - 2 * oip3
          { input_per_tone_dbm := pin, output_per_tone_dbm := pout,
            im3_output_dbm := im3, rejection_db := pout - im3 }

/-- `src/input.rs`: the signal entering the chain. -/
structure Input where
  frequency_hz : ℚ
  bandwidth_hz : ℚ
  power_dbm : ℚ
  noise_temperature_k : Option ℚ
  deriving DecidableEq

/-- `Input::noise_power`: `k·T·B` in dBm with `T` defaulting to 270 K. -/
def Input.noise_power (inp : Input) (c : Rfconv) : ℚ :=
  let k := BOLTZMANN
  let t := inp.noise_temperature_k.getD 270
  c.watts_to_dbm (k * t * inp.bandwidth_hz)

/-- `SignalNode` (src/node.rs): the running cascade state after each stage. -/
structure SignalNode where
  name : String
  signal_frequency_hz : ℚ
  signal_bandwidth_hz : ℚ
  signal_power_dbm : ℚ
  noise_power_dbm : ℚ
  cumulative_noise_figure_db : ℚ
  cumulative_gain_db : ℚ
  cumulative_noise_temperature : Option ℚ
  cumulative_oip3_dbm : Option ℚ
  sfdr_db : Option ℚ
  output_p1db_dbm : Option ℚ
  deriving DecidableEq

/-- `impl Default for SignalNode` (src/node.rs): placeholder zeros, except
`cumulative_gain_db = 1.0`. -/
def SignalNode.default : SignalNode where
  name := "default"
  signal_frequency_hz := 0
  signal_bandwidth_hz := 0
  signal_power_dbm := 0
  noise_power_dbm := 0
  cumulative_noise_figure_db := 0
  cumulative_gain_db := 1
  cumulative_noise_temperature := none
  cumulative_oip3_dbm := none
  sfdr_db := none
  output_p1db_dbm := none

/-- `SignalNode::noise_factor`. -/
def SignalNode.noise_factor (n : SignalNode) (c : Rfconv) : ℚ :=
  c.noise_factor_from_noise_figure n.cumulative_noise_figure_db

/-- `Input::cascade_block` (src/input.rs): produce the first stage state. -/
def Input.cascade_block (inp : Input) (c : Rfconv) (block : Block) : SignalNode :=
  let output_node_name := block.name ++ " Output"
  let block_noise_factor := c.noise_factor_from_noise_figure block.noise_figure_db
  let block_noise_temperature := c.noise_temperature_from_noise_factor block_noise_factor
  let output_power_dbm_without_compression := inp.power_dbm + block.gain_db
  let output_power_dbm :=
    match block.output_p1db_dbm with
    | some output_p1db_dbm =>
        if output_power_dbm_without_compression > output_p1db_dbm + 1 then
          output_p1db_dbm + 1
        else output_power_dbm_without_compression
    | none => output_power_dbm_without_compression
  let stage_power_gain_db := output_power_dbm - inp.power_dbm
  let stage_power_gain_linear := c.db_to_linear stage_power_gain_db
  let cumulative_noise_factor := block_noise_factor
  let cumulative_noise_figure := c.noise_figure_from_noise_factor cumulative_noise_factor
  let cumulative_noise_temperature :=
    match inp.noise_temperature_k with
    | some noise_temperature_k =>
        some (noise_temperature_k + block_noise_temperature / stage_power_gain_linear)
    | none => some (270 + block_noise_temperature / stage_power_gain_linear)
  let input_noise_power := inp.noise_power c
  let output_noise_power_from_input_dbm := input_noise_power + stage_power_gain_db
  let output_noise_power_from_block_dbm := block.output_noise_power c inp.bandwidth_hz
  let output_noise_power_from_input_watts := c.dbm_to_watts output_noise_power_from_input_dbm
  let output_noise_power_from_block_watts := c.dbm_to_watts output_noise_power_from_block_dbm
  let total_noise_power_at_output_watts :=
    output_noise_power_from_input_watts + output_noise_power_from_block_watts
  let output_noise_power_at_output_dbm := c.watts_to_dbm total_noise_power_at_output_watts
  let cumulative_oip3_dbm := block.output_ip3_dbm
  let sfdr_db := cumulative_oip3_dbm.map fun oip3 =>
    let noise_floor_dbm := -174 + 10 * c.log10 inp.bandwidth_hz + cumulative_noise_figure
    2 / 3 * (oip3 - noise_floor_dbm)
  { name := output_node_name
    signal_power_dbm := output_power_dbm
    signal_frequency_hz := inp.frequency_hz
    signal_bandwidth_hz := inp.bandwidth_hz
    cumulative_noise_figure_db := cumulative_noise_figure
    cumulative_gain_db := stage_power_gain_db
    cumulative_noise_temperature := cumulative_noise_temperature
    noise_power_dbm := output_noise_power_at_output_dbm
    cumulative_oip3_dbm := cumulative_oip3_dbm
    sfdr_db := sfdr_db
    output_p1db_dbm := block.output_p1db_dbm }

/-- `SignalNode::cascade_block` (src/node.rs): the cascade core for every
stage after the first. -/
def SignalNode.cascade_block (self : SignalNode) (c : Rfconv) (block : Block) : SignalNode :=
  let output_node_name := block.name ++ " Output"
  let block_noise_factor := c.noise_factor_from_noise_figure block.noise_figure_db
  let block_noise_temperature := c.noise_temperature_from_noise_factor block_noise_factor
  let cumulative_gain_linear := c.db_to_linear self.cumulative_gain_db
  let output_power_without_compression := self.signal_power_dbm + block.gain_db
  let output_power_dbm :=
    match block.output_p1db_dbm with
    | some output_p1db_dbm =>
        if output_power_without_compression > output_p1db_dbm + 1 then
          output_p1db_dbm + 1
        else output_power_without_compression
    | none => output_power_without_compression
  let stage_power_gain := output_power_dbm - self.signal_power_dbm
  let cumulative_noise_factor :=
    self.noise_factor c + (block_noise_factor - 1) / cumulative_gain_linear
  let cumulative_noise_figure := c.noise_figure_from_noise_factor cumulative_noise_factor
  let cumulative_noise_temperature :=
    match self.cumulative_noise_temperature with
    | some noise_temperature =>
        some (noise_temperature + block_noise_temperature / cumulative_gain_linear)
    | none => some (270 + block_noise_temperature / cumulative_gain_linear)
  let input_noise_power_dbm := self.noise_power_dbm
  let output_noise_power_without_compression := input_noise_power_dbm + block.gain_db
  let output_noise_power_from_node_dbm :=
    match block.output_p1db_dbm with
    | some output_p1db_dbm =>
        if output_noise_power_without_compression > output_p1db_dbm + 1 then
          output_p1db_dbm + 1
        else output_noise_power_without_compression
    | none => output_noise_power_without_compression
  let output_noise_power_from_block_dbm := block.output_noise_power c self.signal_bandwidth_hz
  let output_noise_power_from_node_watts := c.dbm_to_watts output_noise_power_from_node_dbm
  let output_noise_power_from_block_watts := c.dbm_to_watts output_noise_power_from_block_dbm
  let total_noise_power_at_output_watts :=
    output_noise_power_from_node_watts + output_noise_power_from_block_watts
  let total_noise_power_at_output_dbm := c.watts_to_dbm total_noise_power_at_output_watts
  let output_frequency_hz := self.signal_frequency_hz
  let output_bandwidth_hz := self.signal_bandwidth_hz
  let cumulative_oip3_dbm :=
    match self.cumulative_oip3_dbm, block.output_ip3_dbm with
    | some prev_oip3_dbm, some block_oip3_dbm =>
        let prev_oip3_linear := c.dbm_to_watts prev_oip3_dbm
        let block_oip3_linear := c.dbm_to_watts block_oip3_dbm
        let gain_linear := c.db_to_linear block.gain_db
        let inv_cascade := gain_linear / prev_oip3_linear + 1 / block_oip3_linear
        some (c.watts_to_dbm (1 / inv_cascade))
    | none, some block_oip3_dbm => some block_oip3_dbm
    | _, _ => none
  let new_cumulative_gain_db := self.cumulative_gain_db + stage_power_gain
  let sfdr_db := cumulative_oip3_dbm.map fun oip3 =>
    let noise_floor_dbm := -174 + 10 * c.log10 output_bandwidth_hz + cumulative_noise_figure
    2 / 3 * (oip3 - noise_floor_dbm)
  { name := output_node_name
    signal_frequency_hz := output_frequency_hz
    signal_bandwidth_hz := output_bandwidth_hz
    signal_power_dbm := output_power_dbm
    noise_power_dbm := total_noise_power_at_output_dbm
    cumulative_noise_figure_db := cumulative_noise_figure
    cumulative_gain_db := new_cumulative_gain_db
    cumulative_noise_temperature := cumulative_noise_temperature
    cumulative_oip3_dbm := cumulative_oip3_dbm
    sfdr_db := sfdr_db
    output_p1db_dbm := block.output_p1db_dbm }

/-- The list of nodes produced by repeatedly cascading a starting node
through a list of blocks, in order. -/
def cascade_node_list (c : Rfconv) : SignalNode → List Block → List SignalNode
  | _, [] => []
  | node, b :: rest =>
      let next := node.cascade_block c b
      next :: cascade_node_list c next rest

/-- Modelled from the spec: the current cascade driver
`cascade_vector_return_output(input, blocks)` is not under src/ (src/cascade.rs
is a stale module over different local types; only the integration tests call
the current driver).  Per the spec it "folds Input.cascade_block then
SignalNode.cascade_block across blocks in order; returns only the final
SignalNode. Empty blocks list yields an uninitialized/default SignalNode". -/
def cascade_vector_return_output (c : Rfconv) (input_signal : Input)
    (blocks : List Block) : SignalNode :=
  match blocks with
  | [] => SignalNode.default
  | b :: rest =>
      rest.foldl (fun node blk => node.cascade_block c blk) (input_signal.cascade_block c b)

/-- Modelled from the spec: the current cascade driver
`cascade_vector_return_vector(input, blocks)` is not under src/ (see
`cascade_vector_return_output`).  Per the spec it is the "same fold, returns
every intermediate SignalNode in order", one node per block. -/
def cascade_vector_return_vector (c : Rfconv) (input_signal : Input)
    (blocks : List Block) : List SignalNode :=
  match blocks with
  | [] => []
  | b :: rest =>
      let first := input_signal.cascade_block c b
      first :: cascade_node_list c first rest

/-- Per-stage actual power gains of a chain of nodes: each entry is that
stage's output signal power minus its input signal power. -/
def actualGains : ℚ → List SignalNode → List ℚ
  | _, [] => []
  | p, n :: ns => (n.signal_power_dbm - p) :: actualGains n.signal_power_dbm ns

/-- `AmplifierPoint` (src/amplifier_model.rs). -/
structure AmplifierPoint where
  input_dbm : ℚ
  output_dbm : ℚ
  gain_db : ℚ
  phase_shift_deg : Option ℚ
  deriving DecidableEq

/-- `AmplifierModel` (src/amplifier_model.rs): a block plus optional AM-PM
characterization (the Rust borrow is embedded by value). -/
structure AmplifierModel where
  block : Block
  am_pm_coefficient_deg_per_db : Option ℚ
  saturation_power_dbm : Option ℚ
  deriving DecidableEq

/-- `AmplifierModel::input_p1db_dbm`. -/
def AmplifierModel.input_p1db_dbm (m : AmplifierModel) : Option ℚ :=
  m.block.output_p1db_dbm.map (fun p => p - m.block.gain_db)

/-- `AmplifierModel::phase_shift_at`: `coeff × max(0, Pin − input_P1dB)`. -/
def AmplifierModel.phase_shift_at (m : AmplifierModel) (input_power_dbm : ℚ) : Option ℚ :=
  match m.am_pm_coefficient_deg_per_db, m.input_p1db_dbm with
  | some coeff, some input_p1db => some (coeff * max (input_power_dbm - input_p1db) 0)
  | _, _ => none

/-- `AmplifierModel::am_am_am_pm_sweep`: the same `while pin <= stop + step*0.01`
loop as `sweep_range`, emitting one `AmplifierPoint` per iteration. -/
def AmplifierModel.am_am_am_pm_sweep (m : AmplifierModel) (fuel : ℕ)
    (start_dbm stop_dbm step_db : ℚ) : Option (List AmplifierPoint) :=
  sweepLoop
    (fun pin =>
      let pout := m.block.output_power pin
      { input_dbm := pin, output_dbm := pout, gain_db := pout - pin,
        phase_shift_deg := m.phase_shift_at pin })
    fuel start_dbm stop_dbm step_db

/-- `AmplifierModel::backoff_for_target_phase`: `−(max_phase/coeff)`, but
`none` when the coefficient is absent or zero. -/
def AmplifierModel.backoff_for_target_phase (m : AmplifierModel) (max_phase_deg : ℚ) :
    Option ℚ :=
  match m.am_pm_coefficient_deg_per_db with
  | none => none
  | some coeff =>
      if coeff = 0 then none
      else
        let allowed_above_p1db := max_phase_deg / coeff
        some (-allowed_above_p1db)

/-- A concrete conversion bundle used only to instantiate universally
quantified statements at a specific input (the structural claims hold for
every bundle, so any computable choice serves as an evaluation point). -/
def qconv : Rfconv where
  db_to_linear := fun x => x + 1
  dbm_to_watts := fun x => x + 2
  watts_to_dbm := fun x => x + 3
  noise_factor_from_noise_figure := fun x => x + 4
  noise_figure_from_noise_factor := fun x => x + 5
  noise_temperature_from_noise_figure := fun x => x + 6
  noise_temperature_from_noise_factor := fun x => x + 7
  log10 := fun x => x

/-- The compressing block of the spec's concrete example:
`Block{gain_db: 20, output_p1db_dbm: Some(10)}`. -/
def exampleCompressionBlock : Block where
  name := "PA"
  gain_db := 20
  noise_figure_db := 5
  output_p1db_dbm := some 10
  output_ip3_dbm := none

/-- A block with both a compression point and an OIP3, used to exhibit the
IMD3 slope in the clamped region: gain 20 dB, P1dB 10 dBm, OIP3 30 dBm. -/
def clampedImd3Block : Block where
  name := "Amp"
  gain_db := 20
  noise_figure_db := 3
  output_p1db_dbm := some 10
  output_ip3_dbm := some 30

/-- A block carrying an OIP3, cascaded after a node whose cumulative OIP3 is
unknown (gain 25 dB, OIP3 25 dBm). -/
def oip3RestartBlock : Block where
  name := "IF Amp"
  gain_db := 25
  noise_figure_db := 4
  output_p1db_dbm := none
  output_ip3_dbm := some 25

/-- An amplifier model whose AM-PM coefficient is present but zero. -/
def zeroCoeffModel : AmplifierModel where
  block := exampleCompressionBlock
  am_pm_coefficient_deg_per_db := some 0
  saturation_power_dbm := none

/-- An amplifier model with AM-PM coefficient 10 °/dB. -/
def tenCoeffModel : AmplifierModel where
  block := exampleCompressionBlock
  am_pm_coefficient_deg_per_db := some 10
  saturation_power_dbm := none

/-- A concrete input signal (1 GHz, 1 MHz bandwidth, −30 dBm, default source
temperature) used to instantiate universally quantified statements. -/
def exampleInput : Input where
  frequency_hz := 1000000000
  bandwidth_hz := 1000000
  power_dbm := -30
  noise_temperature_k := none

/-- C1: `SignalNode::cascade_block` accumulates the Friis noise factor as
`self.noise_factor() + (block.noise_factor() − 1) / G_prior_linear`, where
`G_prior_linear = db_to_linear(self.cumulative_gain_db)` (per the spec,
`10^(cumulative_gain_db/10)`) is the linear gain accumulated before this
stage, and stores the noise-figure conversion (per the spec, `10·log10`) of
that factor in the returned node's `cumulative_noise_figure_db`. -/
theorem claim_C1 (c : Rfconv) (self : SignalNode) (block : Block) :
    (self.cascade_block c block).cumulative_noise_figure_db =
      c.noise_figure_from_noise_factor
        (self.noise_factor c +
          (block.noise_factor c - 1) / c.db_to_linear self.cumulative_gain_db) := rfl

/-- C2: `Block::output_power(pin)` is `pin + gain_db`, except that when
`output_p1db_dbm = Some(p)` and `pin + gain_db > p + 1` the result is exactly
`p + 1`; `power_gain(pin)` always equals `output_power(pin) − pin`; and for
`Block{gain_db: 20, output_p1db_dbm: Some(10)}`, `output_power(0) = 11` and
`power_gain(0) = 11`. -/
theorem claim_C2 (b : Block) (pin : ℚ) :
    (∀ p, b.output_p1db_dbm = some p → pin + b.gain_db > p + 1 →
      b.output_power pin = p + 1) ∧
    (∀ p, b.output_p1db_dbm = some p → ¬(pin + b.gain_db > p + 1) →
      b.output_power pin = pin + b.gain_db) ∧
    (b.output_p1db_dbm = none → b.output_power pin = pin + b.gain_db) ∧
    b.power_gain pin = b.output_power pin - pin ∧
    exampleCompressionBlock.output_power 0 = 11 ∧
    exampleCompressionBlock.power_gain 0 = 11 := by
  refine ⟨?_, ?_, ?_, ?_,
    by norm_num [exampleCompressionBlock, Block.output_power],
    by norm_num [exampleCompressionBlock, Block.power_gain, Block.output_power]⟩
  · intro p hp hgt
    simp [Block.output_power, hp, if_pos hgt]
  · intro p hp hle
    simp [Block.output_power, hp, if_neg hle]
  · intro hp
    simp [Block.output_power, hp]
  · simp [Block.power_gain]

/-- Witness for C2: the compression clamp of the spec's concrete example,
obtained by instantiating `claim_C2` at `pin = 0` and discharging the
clamp-active hypotheses there. -/
theorem claim_C2_witness :
    exampleCompressionBlock.output_p1db_dbm = some 10 ∧
    (0 : ℚ) + exampleCompressionBlock.gain_db > 10 + 1 ∧
    exampleCompressionBlock.output_power 0 = 10 + 1 :=
  ⟨rfl, by norm_num [exampleCompressionBlock],
    (claim_C2 exampleCompressionBlock 0).1 10 rfl
      (by norm_num [exampleCompressionBlock])⟩

/-- C4, counterexample: a node whose cumulative OIP3 is unknown (here
`SignalNode::default`, whose `cumulative_oip3_dbm` is `None`), cascaded
through a later block that does specify `output_ip3_dbm = Some(25)`, yields
`cumulative_oip3_dbm = Some(25)` — not `None` as the claim's "permanently
unknown" policy would require. -/
theorem claim_C4_cex :
    SignalNode.default.cumulative_oip3_dbm = none ∧
    oip3RestartBlock.output_ip3_dbm = some 25 ∧
    (SignalNode.default.cascade_block qconv oip3RestartBlock).cumulative_oip3_dbm =
      some 25 := by
  refine ⟨rfl, rfl, ?_⟩
  decide

/-- C4, amended: when the prior cumulative OIP3 is `None` and the next block
specifies `output_ip3_dbm = Some(v)`, `SignalNode::cascade_block` restarts the
running cumulative OIP3 at `Some(v)` (the `(None, Some)` arm of the match);
the running value is therefore unknown only until the next block that
specifies an OIP3, not permanently. -/
theorem claim_C4 (c : Rfconv) (node : SignalNode) (block : Block) (v : ℚ)
    (hnode : node.cumulative_oip3_dbm = none)
    (hblock : block.output_ip3_dbm = some v) :
    (node.cascade_block c block).cumulative_oip3_dbm = some v := by
  simp [SignalNode.cascade_block, hnode, hblock]

/-- Witness for C4 (amended): the restart arm evaluated at the default node
and the OIP3-carrying block. -/
theorem claim_C4_witness :
    (SignalNode.default.cascade_block qconv oip3RestartBlock).cumulative_oip3_dbm =
      some 25 :=
  claim_C4 qconv SignalNode.default oip3RestartBlock 25 rfl rfl

/-- C5: the cascade driver applied to an empty blocks list returns
`SignalNode::default` (the placeholder node of src/node.rs), for every
conversion bundle and every input signal. -/
theorem claim_C5 (c : Rfconv) (inp : Input) :
    cascade_vector_return_output c inp [] = SignalNode.default := rfl

/-- C9, counterexample: a model whose AM-PM coefficient is present but zero
(`Some(0)`) makes `backoff_for_target_phase` return `None`, not the value
`−(max_phase_deg/coeff)` the claim promises for every `Some(coeff)`. -/
theorem claim_C9_cex :
    zeroCoeffModel.am_pm_coefficient_deg_per_db = some 0 ∧
    zeroCoeffModel.backoff_for_target_phase 5 = none := by
  refine ⟨rfl, ?_⟩
  decide

/-- C9, amended: for every model whose AM-PM coefficient is `Some(coeff)`
with `coeff ≠ 0`, `backoff_for_target_phase(max_phase_deg)` returns
`Some(−(max_phase_deg/coeff))` (which may be negative); for `coeff = 0` the
code returns `None` instead. -/
theorem claim_C9 (m : AmplifierModel) (coeff max_phase_deg : ℚ)
    (hc : m.am_pm_coefficient_deg_per_db = some coeff) (hz : coeff ≠ 0) :
    m.backoff_for_target_phase max_phase_deg = some (-(max_phase_deg / coeff)) := by
  simp [AmplifierModel.backoff_for_target_phase, hc, hz]

/-- Witness for C9 (amended): coefficient 10 °/dB and a 5° budget give a
backoff of −0.5 dB. -/
theorem claim_C9_witness :
    tenCoeffModel.backoff_for_target_phase 5 = some (-(5 / 10 : ℚ)) :=
  claim_C9 tenCoeffModel 10 5 rfl (by norm_num)

/-- C10: in `Input::cascade_block` the source-noise contribution is
`noise_power() + (actual, possibly compressed, stage power gain)` with no
clamp of its own on the noise path, whereas `SignalNode::cascade_block`
amplifies the prior node's noise by the nominal `gain_db` and applies an
independent P1dB clamp (`clampP1`) to that noise path; in both cases the two
noise contributions are summed in watts and converted back to dBm. -/
theorem claim_C10 (c : Rfconv) (inp : Input) (block : Block) :
    ((inp.cascade_block c block).noise_power_dbm =
      c.watts_to_dbm
        (c.dbm_to_watts (inp.noise_power c + block.power_gain inp.power_dbm) +
          c.dbm_to_watts (block.output_noise_power c inp.bandwidth_hz))) ∧
    ∀ node : SignalNode,
      (node.cascade_block c block).noise_power_dbm =
        c.watts_to_dbm
          (c.dbm_to_watts
              (clampP1 block.output_p1db_dbm (node.noise_power_dbm + block.gain_db)) +
            c.dbm_to_watts (block.output_noise_power c node.signal_bandwidth_hz)) := by
  constructor
  · rfl
  · intro node
    cases hp : block.output_p1db_dbm <;>
      simp [SignalNode.cascade_block, clampP1, hp]

/-- Each `SignalNode::cascade_block` step adds exactly the stage's actual
power gain (output signal power minus input signal power) to the running
`cumulative_gain_db`. -/
theorem cascade_block_gain_decomp (c : Rfconv) (n : SignalNode) (b : Block) :
    (n.cascade_block c b).cumulative_gain_db =
      n.cumulative_gain_db +
        ((n.cascade_block c b).signal_power_dbm - n.signal_power_dbm) := by
  cases hp : b.output_p1db_dbm <;>
    simp [SignalNode.cascade_block, hp]

/-- `Input::cascade_block` starts `cumulative_gain_db` at the first stage's
actual power gain. -/
theorem input_cascade_gain (c : Rfconv) (inp : Input) (b : Block) :
    (inp.cascade_block c b).cumulative_gain_db =
      (inp.cascade_block c b).signal_power_dbm - inp.power_dbm := rfl

/-- Folding `cascade_block` over any block list adds the sum of the
per-stage actual power gains to the starting node's cumulative gain. -/
theorem foldl_cumulative_gain (c : Rfconv) :
    ∀ (bs : List Block) (n : SignalNode),
      (List.foldl (fun m blk => m.cascade_block c blk) n bs).cumulative_gain_db =
        n.cumulative_gain_db +
          (actualGains n.signal_power_dbm (cascade_node_list c n bs)).sum := by
  intro bs
  induction bs with
  | nil => intro n; simp [cascade_node_list, actualGains]
  | cons b rest ih =>
      intro n
      simp only [List.foldl_cons, cascade_node_list, actualGains, List.sum_cons]
      rw [ih, cascade_block_gain_decomp]
      ring

/-- C3: for every chain built by `Input::cascade_block` followed by any
sequence of `SignalNode::cascade_block` calls, the resulting node's
`cumulative_gain_db` is the sum of the per-stage actual (possibly
P1dB-compressed) power gains — each stage's output signal power minus its
input signal power — not of the nominal `gain_db` values.  Since the block
list is universally quantified, this covers every intermediate node of every
chain. -/
theorem claim_C3 (c : Rfconv) (inp : Input) (b : Block) (bs : List Block) :
    (List.foldl (fun node blk => node.cascade_block c blk)
        (inp.cascade_block c b) bs).cumulative_gain_db =
      (actualGains inp.power_dbm (cascade_vector_return_vector c inp (b :: bs))).sum := by
  simp only [cascade_vector_return_vector]
  rw [foldl_cumulative_gain]
  simp only [actualGains, List.sum_cons]
  rw [input_cascade_gain]

/-- Elements of the node trace: position `m` of the trace headed by `node`
holds the fold of `cascade_block` over the first `m` blocks. -/
theorem node_list_getElem (c : Rfconv) :
    ∀ (m : ℕ) (node : SignalNode) (bs : List Block), m ≤ bs.length →
      (node :: cascade_node_list c node bs)[m]? =
        some (List.foldl (fun x blk => x.cascade_block c blk) node (bs.take m)) := by
  intro m
  induction m with
  | zero => intro node bs _; simp
  | succ k ih =>
      intro node bs h
      cases bs with
      | nil => simp at h
      | cons b rest =>
          simp only [cascade_node_list, List.take_succ_cons, List.foldl_cons,
            List.getElem?_cons_succ]
          exact ih (node.cascade_block c b) rest (by simpa using h)

/-- C6: for every prefix length `n` from 1 to the block list's length,
element `n − 1` of `cascade_vector_return_vector(input, blocks)` equals
`cascade_vector_return_output(input, blocks[0..n])`: the vector-returning
driver agrees with the output-returning driver on every prefix. -/
theorem claim_C6 (c : Rfconv) (inp : Input) (bs : List Block) (n : ℕ)
    (h1 : 1 ≤ n) (h2 : n ≤ bs.length) :
    (cascade_vector_return_vector c inp bs)[n - 1]? =
      some (cascade_vector_return_output c inp (bs.take n)) := by
  cases bs with
  | nil => simp at h2; omega
  | cons b rest =>
      obtain ⟨m, rfl⟩ : ∃ m, n = m + 1 := ⟨n - 1, (Nat.succ_pred_eq_of_pos h1).symm⟩
      simp only [cascade_vector_return_vector, List.take_succ_cons,
        cascade_vector_return_output, Nat.add_sub_cancel]
      exact node_list_getElem c m (inp.cascade_block c b) rest (by simpa using h2)

/-- Witness for C6: a one-block chain, prefix length 1, evaluated through
`claim_C6` at a concrete conversion bundle and input. -/
theorem claim_C6_witness :
    (cascade_vector_return_vector qconv exampleInput [oip3RestartBlock])[0]? =
      some (cascade_vector_return_output qconv exampleInput
        ([oip3RestartBlock].take 1)) :=
  claim_C6 qconv exampleInput [oip3RestartBlock] 1 (le_refl 1) (by simp)

/-- When the P1dB clamp is inactive at `x` (vacuously so when
`output_p1db_dbm` is `None`), `Block::output_power` is linear. -/
theorem output_power_linear (b : Block) (x : ℚ)
    (h : ∀ p ∈ b.output_p1db_dbm, x + b.gain_db ≤ p + 1) :
    b.output_power x = x + b.gain_db := by
  cases hp : b.output_p1db_dbm with
  | none => simp [Block.output_power, hp]
  | some p =>
      have hle : x + b.gain_db ≤ p + 1 := h p (by simp [hp])
      simp [Block.output_power, hp, if_neg (not_lt.mpr hle)]

/-- C7, counterexample: for a block with both a P1dB clamp and an OIP3
(gain 20 dB, P1dB 10 dBm, OIP3 30 dBm), at `pin = 0` both `pin` and
`pin + 1` are in the clamped region, so the IMD3 slope is 0 dB per dB of
input — not 3 ± 0.01 as the claim asserts "for any pin". -/
theorem claim_C7_cex :
    clampedImd3Block.imd3_output_power_dbm (0 + 1) = some (-27) ∧
    clampedImd3Block.imd3_output_power_dbm 0 = some (-27) ∧
    ¬(3 - 1 / 100 ≤ (-27 : ℚ) - (-27) ∧ (-27 : ℚ) - (-27) ≤ 3 + 1 / 100) := by
  refine ⟨?_, ?_, by norm_num⟩ <;>
    norm_num [clampedImd3Block, Block.imd3_output_power_dbm, Block.output_power]

/-- C7, amended: for every block with `output_ip3_dbm = Some(oip3)`,
`imd3_output_power_dbm(pin) = 3·output_power(pin) − 2·oip3`; and the slope is
exactly 3 dB per dB of input (hence within ±0.01) whenever the P1dB clamp is
inactive at `pin + 1` (in particular whenever `output_p1db_dbm` is `None`) —
in the clamped region the slope is 0 instead. -/
theorem claim_C7 (b : Block) (oip3 pin : ℚ) (h : b.output_ip3_dbm = some oip3) :
    b.imd3_output_power_dbm pin = some (3 * b.output_power pin - 2 * oip3) ∧
    ((∀ p ∈ b.output_p1db_dbm, pin + 1 + b.gain_db ≤ p + 1) →
      ∃ v w, b.imd3_output_power_dbm (pin + 1) = some v ∧
        b.imd3_output_power_dbm pin = some w ∧ v - w = 3) := by
  constructor
  · simp [Block.imd3_output_power_dbm, h]
  · intro hlin
    have hlin0 : ∀ p ∈ b.output_p1db_dbm, pin + b.gain_db ≤ p + 1 := by
      intro p hp
      have := hlin p hp
      linarith
    refine ⟨3 * (pin + 1 + b.gain_db) - 2 * oip3, 3 * (pin + b.gain_db) - 2 * oip3,
      ?_, ?_, by ring⟩
    · simp [Block.imd3_output_power_dbm, h, output_power_linear b (pin + 1) hlin]
    · simp [Block.imd3_output_power_dbm, h, output_power_linear b pin hlin0]

/-- Witness for C7: the unclamped block `{gain 20, OIP3 30, no P1dB}` at
`pin = −30`: `IM3(−30) = −90` and the slope from −30 to −29 is exactly 3. -/
theorem claim_C7_witness :
    (Block.mk "Amp" 20 3 none (some 30)).imd3_output_power_dbm (-30) =
      some (3 * (Block.mk "Amp" 20 3 none (some 30)).output_power (-30) - 2 * 30) ∧
    ∃ v w,
      (Block.mk "Amp" 20 3 none (some 30)).imd3_output_power_dbm (-30 + 1) = some v ∧
      (Block.mk "Amp" 20 3 none (some 30)).imd3_output_power_dbm (-30) = some w ∧
      v - w = 3 :=
  ⟨(claim_C7 (Block.mk "Amp" 20 3 none (some 30)) 30 (-30) rfl).1,
    (claim_C7 (Block.mk "Amp" 20 3 none (some 30)) 30 (-30) rfl).2 (by simp)⟩

/-- One unfolding of the fueled sweep loop. -/
theorem sweepLoop_succ {α : Type} (f : ℚ → α) (fuel : ℕ) (pin stop_dbm step_db : ℚ) :
    sweepLoop f (fuel + 1) pin stop_dbm step_db =
      if pin ≤ stop_dbm + step_db * (1 / 100) then
        (sweepLoop f fuel (pin + step_db) stop_dbm step_db).map
          (fun rest => f pin :: rest)
      else some [] := rfl

/-- With `start = stop = step = 0` the sweep loop guard `pin ≤ stop + step*0.01`
stays true with `pin` unchanged, so no amount of fuel completes the loop. -/
theorem sweep_range_zero_fuel_none : ∀ fuel : ℕ, sweep_range fuel 0 0 0 = none := by
  intro fuel
  induction fuel with
  | zero => rfl
  | succ k ih =>
      have h0 : (0 : ℚ) + 0 = 0 := by norm_num
      simp only [sweep_range] at ih ⊢
      rw [sweepLoop_succ, if_pos (by norm_num : (0 : ℚ) ≤ 0 + 0 * (1 / 100)), h0, ih]
      rfl

/-- C8, counterexample: `sweep_range(0.0, 0.0, 0.0)` never terminates — the
loop `while pin <= stop + step*0.01 { ...; pin += step }` re-tests `0 ≤ 0`
forever — contradicting the claim that every sweep terminates "including
zero and negative step". -/
theorem claim_C8_cex : ¬ sweep_range_terminates 0 0 0 := by
  rintro ⟨fuel, l, hl⟩
  rw [sweep_range_zero_fuel_none fuel] at hl
  exact Option.noConfusion hl

/-- If the loop bound is already exceeded after `k` more additions of `step`,
the sweep loop exits within `k + 1` iterations. -/
theorem sweepLoop_exits {α : Type} (f : ℚ → α) (stop_dbm step_db : ℚ) :
    ∀ (k : ℕ) (pin : ℚ), stop_dbm + step_db * (1 / 100) < pin + k * step_db →
      ∃ l, sweepLoop f (k + 1) pin stop_dbm step_db = some l := by
  intro k
  induction k with
  | zero =>
      intro pin h
      simp only [Nat.cast_zero, zero_mul, add_zero] at h
      refine ⟨[], ?_⟩
      rw [sweepLoop_succ, if_neg (not_le.mpr h)]
  | succ k ih =>
      intro pin h
      by_cases hg : pin ≤ stop_dbm + step_db * (1 / 100)
      · have h2 : stop_dbm + step_db * (1 / 100) < (pin + step_db) + k * step_db := by
          push_cast at h
          linarith
        obtain ⟨l, hl⟩ := ih (pin + step_db) h2
        refine ⟨f pin :: l, ?_⟩
        rw [sweepLoop_succ, if_pos hg, hl]
        rfl
      · refine ⟨[], ?_⟩
        rw [sweepLoop_succ, if_neg hg]

/-- For every positive step the sweep loop terminates: some fuel suffices. -/
theorem sweepLoop_total {α : Type} (f : ℚ → α) (start_dbm stop_dbm step_db : ℚ)
    (hstep : 0 < step_db) :
    ∃ fuel l, sweepLoop f fuel start_dbm stop_dbm step_db = some l := by
  obtain ⟨k, hk⟩ := exists_nat_gt ((stop_dbm + step_db * (1 / 100) - start_dbm) / step_db)
  have hb : stop_dbm + step_db * (1 / 100) < start_dbm + k * step_db := by
    have := (div_lt_iff₀ hstep).mp hk
    linarith
  obtain ⟨l, hl⟩ := sweepLoop_exits f stop_dbm step_db k start_dbm hb
  exact ⟨k + 1, l, hl⟩

/-- C8, amended: the sweep operations terminate for every positive step
(and, trivially, whenever the loop guard fails at entry); with `step = 0` and
`start ≤ stop` the loop never terminates (see the counterexample).  For
positive step this covers `sweep_range`, `am_am_sweep`,
`gain_compression_sweep`, `imd3_sweep` and `am_am_am_pm_sweep`. -/
theorem claim_C8 (start_dbm stop_dbm step_db : ℚ) (hstep : 0 < step_db) :
    sweep_range_terminates start_dbm stop_dbm step_db ∧
    (∀ b : Block, ∃ fuel l, b.am_am_sweep fuel start_dbm stop_dbm step_db = some l) ∧
    (∀ b : Block,
      ∃ fuel l, b.gain_compression_sweep fuel start_dbm stop_dbm step_db = some l) ∧
    (∀ b : Block, ∃ fuel l, b.imd3_sweep fuel start_dbm stop_dbm step_db = some l) ∧
    ∀ m : AmplifierModel,
      ∃ fuel l, m.am_am_am_pm_sweep fuel start_dbm stop_dbm step_db = some l := by
  obtain ⟨fuel, l, hl⟩ := sweepLoop_total id start_dbm stop_dbm step_db hstep
  have hrange : sweep_range fuel start_dbm stop_dbm step_db = some l := hl
  refine ⟨⟨fuel, l, hrange⟩, ?_, ?_, ?_, ?_⟩
  · intro b
    exact ⟨fuel, b.am_am_curve l, by simp [Block.am_am_sweep, hrange]⟩
  · intro b
    exact ⟨fuel, b.gain_compression_curve l, by simp [Block.gain_compression_sweep, hrange]⟩
  · intro b
    cases hb : b.output_ip3_dbm with
    | none => exact ⟨0, [], by simp [Block.imd3_sweep, hb]⟩
    | some oip3 =>
        exact ⟨fuel,
          l.map fun pin =>
            let pout := b.output_power pin
            let im3 := 3 * pout - 2 * oip3
            { input_per_tone_dbm := pin, output_per_tone_dbm := pout,
              im3_output_dbm := im3, rejection_db := pout - im3 },
          by simp [Block.imd3_sweep, hb, hrange]⟩
  · intro m
    obtain ⟨fuel2, l2, hl2⟩ :=
      sweepLoop_total
        (fun pin =>
          let pout := m.block.output_power pin
          ({ input_dbm := pin, output_dbm := pout, gain_db := pout - pin,
             phase_shift_deg := m.phase_shift_at pin } : AmplifierPoint))
        start_dbm stop_dbm step_db hstep
    exact ⟨fuel2, l2, hl2⟩

/-- Witness for C8 (amended): the sweep from 0 to 1 in steps of 1 terminates. -/
theorem claim_C8_witness : sweep_range_terminates 0 1 1 :=
  (claim_C8 0 1 1 (by norm_num)).1

end Gainlineup
